import Mathlib

/-!
Shallow embedding of the `limiter` Django app's rate-limiting core
(`limiter/services/ratelimiter.py`, `limiter/views.py`, `limiter/models.py`).

Modelling conventions:
* Instants are naturals (seconds since epoch); `timezone.now()` becomes an
  explicit `now : Nat` argument threaded through each operation.
* A `RateLimitLog` row is a `Record`; the database table is a `List Record`
  and `RateLimitLog.objects.create` appends to it.
* The two module-level dicts `RateLimiter._cache` (key ↦ (cache_time, count))
  and `RateLimiter._cache_ttl` (key ↦ expiry) are association lists; dict
  assignment replaces any existing binding for the key.
* `raise RateLimitExceeded(...)` becomes `Except.error e` where `e` carries the
  values interpolated into the exception message (current count, limit, window)
  together with the `reset_time` instant computed in the deny branch.
-/

namespace RateLimiterModel

/-- One row of `RateLimitLog` (limiter/models.py): identifier, endpoint and
the creation timestamp (`auto_now_add`). -/
structure Record where
  identifier : String
  endpoint : String
  timestamp : Nat
deriving Repr, DecidableEq

/-- The mutable state touched by `RateLimiter`: the database table of
`RateLimitLog` rows, plus the two in-process dicts `_cache` and `_cache_ttl`. -/
structure RLState where
  store : List Record
  cacheData : List (String × Nat × Nat)
  cacheTtl : List (String × Nat)
deriving Repr, DecidableEq

/-- Fresh process state: empty table, empty cache dicts. -/
def initState : RLState := ⟨[], [], []⟩

/-- Dict lookup on an association list (first binding wins). -/
def alGet {α : Type} (l : List (String × α)) (k : String) : Option α :=
  (l.find? (fun p => p.1 == k)).map (fun p => p.2)

/-- Dict assignment on an association list: replaces any existing binding. -/
def alSet {α : Type} (l : List (String × α)) (k : String) (v : α) :
    List (String × α) :=
  (k, v) :: l.filter (fun p => !(p.1 == k))

/-- `RateLimiter._get_cache_key`: `f"ratelimit:{identifier}:{endpoint}"`. -/
def get_cache_key (identifier endpoint : String) : String :=
  "ratelimit:" ++ identifier ++ ":" ++ endpoint

/-- `RateLimiter._clean_old_cache_entries`: collect the keys whose recorded
TTL expiry is strictly before `now` and pop them from both dicts. -/
def clean_old_cache_entries (s : RLState) (now : Nat) : RLState :=
  let expired_keys := (s.cacheTtl.filter (fun p => decide (p.2 < now))).map (fun p => p.1)
  { s with
    cacheData := s.cacheData.filter (fun p => !(expired_keys.contains p.1)),
    cacheTtl := s.cacheTtl.filter (fun p => !(expired_keys.contains p.1)) }

/-- `RateLimiter._get_from_cache`: return the cached count when an entry
exists and its age is strictly below the current request's window length. -/
def get_from_cache (s : RLState) (identifier endpoint : String)
    (window_seconds now : Nat) : Option Nat :=
  match alGet s.cacheData (get_cache_key identifier endpoint) with
  | some (cache_time, cache_count) =>
      if now - cache_time < window_seconds then some cache_count else none
  | none => none

/-- `RateLimiter._set_cache`: store `(now, count)` under the cache key and
stamp the TTL dict with `now + window_seconds`. -/
def set_cache (s : RLState) (identifier endpoint : String)
    (count window_seconds now : Nat) : RLState :=
  { s with
    cacheData := alSet s.cacheData (get_cache_key identifier endpoint) (now, count),
    cacheTtl := alSet s.cacheTtl (get_cache_key identifier endpoint) (now + window_seconds) }

/-- `RateLimiter._count_requests_sliding_window`: number of rows matching the
identifier and endpoint with `window_start ≤ timestamp ≤ now`, where
`window_start = now - window_seconds`. -/
def count_requests_sliding_window (store : List Record)
    (identifier endpoint : String) (window_seconds now : Nat) : Nat :=
  store.countP (fun r => decide (r.identifier = identifier ∧ r.endpoint = endpoint ∧
      now - window_seconds ≤ r.timestamp ∧ r.timestamp ≤ now))

/-- `RateLimiter._count_requests_fixed_window`: same filter but with
`window_start = (epoch_seconds // window_seconds) * window_seconds`. -/
def count_requests_fixed_window (store : List Record)
    (identifier endpoint : String) (window_seconds now : Nat) : Nat :=
  store.countP (fun r => decide (r.identifier = identifier ∧ r.endpoint = endpoint ∧
      now / window_seconds * window_seconds ≤ r.timestamp ∧ r.timestamp ≤ now))

/-- The size-triggered housekeeping at the top of `check_limit`: the expiry
sweep runs only when more than 1000 cache entries are resident. -/
def sweep_if_large (s : RLState) (now : Nat) : RLState :=
  if 1000 < s.cacheData.length then clean_old_cache_entries s now else s

/-- Strategy dispatch of `check_limit`: `'sliding'` selects the sliding-window
count, any other strategy string falls into the `else` (fixed window). -/
def count_by_strategy (store : List Record) (identifier endpoint : String)
    (window_seconds now : Nat) (strategy : String) : Nat :=
  if strategy = "sliding"
  then count_requests_sliding_window store identifier endpoint window_seconds now
  else count_requests_fixed_window store identifier endpoint window_seconds now

/-- The `current_count` value `check_limit` works with: the cached count on a
cache hit, otherwise the count computed for the requested strategy. -/
def current_count_of (s : RLState) (identifier endpoint : String)
    (window_seconds : Nat) (strategy : String) (use_cache : Bool) (now : Nat) : Nat :=
  match (if use_cache then
      get_from_cache (sweep_if_large s now) identifier endpoint window_seconds now
    else none) with
  | some c => c
  | none =>
      count_by_strategy (sweep_if_large s now).store identifier endpoint
        window_seconds now strategy

/-- Payload of a raised `RateLimitExceeded`: the three values interpolated in
the exception message plus the `reset_time` computed in the deny branch. -/
structure RateLimitError where
  currentCount : Nat
  limit : Nat
  windowSeconds : Nat
  resetAt : Nat
deriving Repr, DecidableEq

/-- The outcome of one `check_limit` call: either the returned triple
`(is_allowed, remaining, reset_time)` or the raised exception's data. -/
abbrev CheckResult := Except RateLimitError (Bool × Int × Nat)

/-- `RateLimiter.check_limit`, step by step:
1. if more than 1000 cache entries are resident, run the expiry sweep;
2. if `use_cache`, try `_get_from_cache`;
3. on a miss compute the count for the strategy (any string other than
   `"sliding"` selects the fixed window) and, if `use_cache`, cache it;
4. if `current_count ≥ limit`, raise `RateLimitExceeded`;
5. otherwise create a `RateLimitLog` row, update the cache with
   `current_count + 1` when `use_cache`, and return
   `(True, limit - (current_count + 1), now + window_seconds)`. -/
def check_limit (s : RLState) (identifier endpoint : String)
    (limit window_seconds : Nat) (strategy : String) (use_cache : Bool)
    (now : Nat) : CheckResult × RLState :=
  let s1 := sweep_if_large s now
  let cached_count : Option Nat :=
    if use_cache then get_from_cache s1 identifier endpoint window_seconds now
    else none
  let current_count : Nat :=
    match cached_count with
    | some c => c
    | none => count_by_strategy s1.store identifier endpoint window_seconds now strategy
  let s2 : RLState :=
    match cached_count with
    | some _ => s1
    | none =>
        if use_cache then set_cache s1 identifier endpoint current_count window_seconds now
        else s1
  if limit ≤ current_count then
    (Except.error ⟨current_count, limit, window_seconds, now + window_seconds⟩, s2)
  else
    let s3 := { s2 with store := s2.store ++ [⟨identifier, endpoint, now⟩] }
    let s4 := if use_cache
      then set_cache s3 identifier endpoint (current_count + 1) window_seconds now
      else s3
    (Except.ok (true, (limit : Int) - ((current_count : Int) + 1), now + window_seconds), s4)

/-- Arguments of one `check_limit` call, used to describe call sequences. -/
structure Call where
  identifier : String
  endpoint : String
  limit : Nat
  window_seconds : Nat
  strategy : String
  now : Nat
deriving Repr, DecidableEq

/-- Run a sequence of `check_limit` calls, threading the state, with a fixed
`use_cache` mode for the whole sequence. -/
def runSeq (use_cache : Bool) : List Call → RLState → List CheckResult × RLState
  | [], s => ([], s)
  | c :: cs, s =>
      let first := check_limit s c.identifier c.endpoint c.limit c.window_seconds
        c.strategy use_cache c.now
      let rest := runSeq use_cache cs first.2
      (first.1 :: rest.1, rest.2)

/-- The intermediate state `check_limit` holds after resolving the count and
before the limit comparison: the swept state, plus (on a cache miss with
caching on) the freshly cached count. -/
def state_after_count (s : RLState) (identifier endpoint : String)
    (window_seconds : Nat) (strategy : String) (use_cache : Bool) (now : Nat) :
    RLState :=
  match (if use_cache then
      get_from_cache (sweep_if_large s now) identifier endpoint window_seconds now
    else none) with
  | some _ => sweep_if_large s now
  | none =>
      if use_cache then
        set_cache (sweep_if_large s now) identifier endpoint
          (count_by_strategy (sweep_if_large s now).store identifier endpoint
            window_seconds now strategy)
          window_seconds now
      else sweep_if_large s now

/-- The state right after the admit branch's `RateLimitLog.objects.create`:
the post-count state with the new record appended. -/
def admit_logged_state (s : RLState) (identifier endpoint : String)
    (window_seconds : Nat) (strategy : String) (use_cache : Bool) (now : Nat) :
    RLState :=
  { state_after_count s identifier endpoint window_seconds strategy use_cache now with
    store := (state_after_count s identifier endpoint window_seconds strategy use_cache now).store
      ++ [⟨identifier, endpoint, now⟩] }

theorem admit_logged_state_store (s : RLState) (identifier endpoint : String)
    (window_seconds : Nat) (strategy : String) (use_cache : Bool) (now : Nat) :
    (admit_logged_state s identifier endpoint window_seconds strategy use_cache now).store =
      (state_after_count s identifier endpoint window_seconds strategy use_cache now).store
        ++ [⟨identifier, endpoint, now⟩] := rfl

theorem admit_logged_state_cacheData (s : RLState) (identifier endpoint : String)
    (window_seconds : Nat) (strategy : String) (use_cache : Bool) (now : Nat) :
    (admit_logged_state s identifier endpoint window_seconds strategy use_cache now).cacheData =
      (state_after_count s identifier endpoint window_seconds strategy use_cache now).cacheData :=
  rfl

theorem admit_logged_state_cacheTtl (s : RLState) (identifier endpoint : String)
    (window_seconds : Nat) (strategy : String) (use_cache : Bool) (now : Nat) :
    (admit_logged_state s identifier endpoint window_seconds strategy use_cache now).cacheTtl =
      (state_after_count s identifier endpoint window_seconds strategy use_cache now).cacheTtl :=
  rfl

theorem check_limit_eq (s : RLState) (identifier endpoint : String)
    (limit window_seconds : Nat) (strategy : String) (use_cache : Bool) (now : Nat) :
    check_limit s identifier endpoint limit window_seconds strategy use_cache now =
      (if limit ≤ current_count_of s identifier endpoint window_seconds strategy use_cache now then
        (Except.error
          ⟨current_count_of s identifier endpoint window_seconds strategy use_cache now,
           limit, window_seconds, now + window_seconds⟩,
         state_after_count s identifier endpoint window_seconds strategy use_cache now)
      else
        (Except.ok (true,
          (limit : Int) -
            ((current_count_of s identifier endpoint window_seconds strategy use_cache now : Int) + 1),
          now + window_seconds),
         if use_cache then
           set_cache
             (admit_logged_state s identifier endpoint window_seconds strategy use_cache now)
             identifier endpoint
             (current_count_of s identifier endpoint window_seconds strategy use_cache now + 1)
             window_seconds now
         else admit_logged_state s identifier endpoint window_seconds strategy use_cache now)) := by
  unfold check_limit current_count_of state_after_count admit_logged_state state_after_count
  cases hc : (if use_cache then
      get_from_cache (sweep_if_large s now) identifier endpoint window_seconds now
    else none) <;>
    simp [hc]

theorem check_limit_result (s : RLState) (identifier endpoint : String)
    (limit window_seconds : Nat) (strategy : String) (use_cache : Bool) (now : Nat) :
    (check_limit s identifier endpoint limit window_seconds strategy use_cache now).1 =
      (if limit ≤ current_count_of s identifier endpoint window_seconds strategy use_cache now then
        Except.error
          ⟨current_count_of s identifier endpoint window_seconds strategy use_cache now,
           limit, window_seconds, now + window_seconds⟩
      else
        Except.ok (true,
          (limit : Int) -
            ((current_count_of s identifier endpoint window_seconds strategy use_cache now : Int) + 1),
          now + window_seconds)) := by
  rw [check_limit_eq]
  split <;> rfl

theorem find?_filter_of_imp {α : Type} (l : List α) (p q : α → Bool)
    (h : ∀ x, p x = true → q x = true) :
    (l.filter q).find? p = l.find? p := by
  induction l with
  | nil => rfl
  | cons a l ih =>
      by_cases hq : q a = true
      · rw [List.filter_cons_of_pos hq]
        cases hp : p a
        · rw [List.find?_cons_of_neg _ (by simp [hp]), List.find?_cons_of_neg _ (by simp [hp]), ih]
        · rw [List.find?_cons_of_pos _ hp, List.find?_cons_of_pos _ hp]
      · have hp : p a = false := by
          cases hpa : p a
          · rfl
          · exact absurd (h a hpa) hq
        rw [List.filter_cons_of_neg (by simpa using hq),
          List.find?_cons_of_neg _ (by simp [hp]), ih]

theorem string_contains_iff_mem (l : List String) (k : String) :
    l.contains k = true ↔ k ∈ l := by
  induction l with
  | nil => simp
  | cons a l ih =>
      simp only [List.contains_cons, Bool.or_eq_true, beq_iff_eq, ih, List.mem_cons]

theorem alGet_alSet_same {α : Type} (l : List (String × α)) (k : String) (v : α) :
    alGet (alSet l k v) k = some v := by
  unfold alGet alSet
  rw [List.find?_cons_of_pos _ (by simp)]
  rfl

theorem alGet_alSet_ne {α : Type} (l : List (String × α)) (k k' : String) (v : α)
    (h : k' ≠ k) :
    alGet (alSet l k v) k' = alGet l k' := by
  unfold alGet alSet
  rw [List.find?_cons_of_neg _ (by simpa using fun hh => h hh.symm),
    find?_filter_of_imp]
  intro x hx
  have hx' : x.1 = k' := by simpa using hx
  simp [hx', h]

theorem sweep_if_large_store (s : RLState) (now : Nat) :
    (sweep_if_large s now).store = s.store := by
  unfold sweep_if_large clean_old_cache_entries
  split <;> rfl

theorem sweep_if_large_of_small (s : RLState) (now : Nat)
    (h : s.cacheData.length ≤ 1000) :
    sweep_if_large s now = s := by
  unfold sweep_if_large
  rw [if_neg (by omega)]

/-- The sweep either leaves a key's binding alone or removes it, and it only
removes keys whose recorded TTL expiry has already passed. -/
theorem clean_alGet (s : RLState) (now : Nat) (k : String) :
    alGet (clean_old_cache_entries s now).cacheData k = alGet s.cacheData k ∨
      (alGet (clean_old_cache_entries s now).cacheData k = none ∧
       ∃ p ∈ s.cacheTtl, p.1 = k ∧ p.2 < now) := by
  unfold clean_old_cache_entries alGet
  by_cases hk :
      k ∈ (s.cacheTtl.filter (fun p => decide (p.2 < now))).map (fun p => p.1)
  · right
    refine ⟨?_, ?_⟩
    · rw [List.find?_eq_none.mpr]
      · rfl
      · intro x hx hpx
        have hkeep := (List.mem_filter.mp hx).2
        have hx1 : x.1 = k := by simpa using hpx
        rw [hx1] at hkeep
        rw [(string_contains_iff_mem _ _).mpr hk] at hkeep
        simp at hkeep
    · rcases List.mem_map.mp hk with ⟨p, hp, hp1⟩
      have := List.mem_filter.mp hp
      exact ⟨p, this.1, hp1, by simpa using this.2⟩
  · left
    rw [find?_filter_of_imp]
    intro x hx
    have hx1 : x.1 = k := by simpa using hx
    rw [hx1]
    cases hc : ((s.cacheTtl.filter (fun p => decide (p.2 < now))).map (fun p => p.1)).contains k
    · rfl
    · exact absurd ((string_contains_iff_mem _ _).mp hc) hk

/-- Restatement of the spec's sliding window over integer instants: the count
of the key's records with timestamp in the closed interval
`[now - windowSeconds, now]`. -/
def spec_sliding_count (store : List Record) (identifier endpoint : String)
    (window_seconds now : Nat) : Nat :=
  store.countP (fun r => decide (r.identifier = identifier ∧ r.endpoint = endpoint ∧
    (now : Int) - (window_seconds : Int) ≤ (r.timestamp : Int) ∧ r.timestamp ≤ now))

/-- Restatement of the spec's fixed window: the count of the key's records
with timestamp in `[b, now]` for a boundary `b`. -/
def spec_count_from_boundary (store : List Record) (identifier endpoint : String)
    (b now : Nat) : Nat :=
  store.countP (fun r => decide (r.identifier = identifier ∧ r.endpoint = endpoint ∧
    b ≤ r.timestamp ∧ r.timestamp ≤ now))

/-- C8: the sliding strategy counts exactly the key's records in the closed
interval `[now - windowSeconds, now]`, and the fixed strategy counts exactly
the key's records in `[b, now]` where `b` is the window boundary aligned to a
multiple of `windowSeconds` since the epoch (`b % windowSeconds = 0` and
`b ≤ now < b + windowSeconds`). -/
theorem C8_window_counters (store : List Record) (identifier endpoint : String)
    (window_seconds now : Nat) (h : 0 < window_seconds) :
    count_requests_sliding_window store identifier endpoint window_seconds now =
      spec_sliding_count store identifier endpoint window_seconds now ∧
    ∃ b : Nat, b % window_seconds = 0 ∧ b ≤ now ∧ now < b + window_seconds ∧
      count_requests_fixed_window store identifier endpoint window_seconds now =
        spec_count_from_boundary store identifier endpoint b now := by
  constructor
  · unfold count_requests_sliding_window spec_sliding_count
    apply List.countP_congr
    intro r _
    constructor <;>
      · intro hr
        have hr' := of_decide_eq_true hr
        apply decide_eq_true
        refine ⟨hr'.1, hr'.2.1, ?_, hr'.2.2.2⟩
        omega
  · refine ⟨now / window_seconds * window_seconds, Nat.mul_mod_left _ _,
      Nat.div_mul_le_self now window_seconds, ?_, rfl⟩
    have h1 : now / window_seconds * window_seconds + now % window_seconds = now :=
      Nat.div_add_mod' now window_seconds
    have h2 : now % window_seconds < window_seconds := Nat.mod_lt _ h
    omega

theorem C8_window_counters_witness :
    0 < 60 ∧
    (count_requests_sliding_window [⟨"ip1", "/api/ping/", 90⟩] "ip1" "/api/ping/" 60 100 =
      spec_sliding_count [⟨"ip1", "/api/ping/", 90⟩] "ip1" "/api/ping/" 60 100 ∧
    ∃ b : Nat, b % 60 = 0 ∧ b ≤ 100 ∧ 100 < b + 60 ∧
      count_requests_fixed_window [⟨"ip1", "/api/ping/", 90⟩] "ip1" "/api/ping/" 60 100 =
        spec_count_from_boundary [⟨"ip1", "/api/ping/", 90⟩] "ip1" "/api/ping/" b 100) :=
  ⟨by decide, C8_window_counters [⟨"ip1", "/api/ping/", 90⟩] "ip1" "/api/ping/" 60 100 (by decide)⟩

/-- C5 counterexample: an entry written by `_set_cache` during a
`window_seconds = 10` call at time 0 (count 7) is returned by
`_get_from_cache` for a request with `window_seconds = 100` at time 5 — a
request with a different (longer) window length reuses the other window's
cached entry, because no cache entry records the window length it was
computed for. -/
theorem C5_counterexample_cross_window_reuse :
    get_from_cache (set_cache initState "ip1" "/api/ping/" 7 10 0)
      "ip1" "/api/ping/" 100 5 = some 7 := by rfl

/-- C5 amended: `_get_from_cache` returns a count precisely when an entry
exists under the key and its age `now - cachedAt` is strictly below the
*current* request's window length. This staleness check does not prevent a
request with a longer window from reusing an entry written under a shorter
one (see the counterexample); it only prevents reuse when the current window
is at most the entry's age. -/
theorem C5_cache_get_iff (s : RLState) (identifier endpoint : String)
    (window_seconds now : Nat) (c : Nat) :
    get_from_cache s identifier endpoint window_seconds now = some c ↔
      ∃ cachedAt,
        alGet s.cacheData (get_cache_key identifier endpoint) = some (cachedAt, c) ∧
        now - cachedAt < window_seconds := by
  unfold get_from_cache
  cases h : alGet s.cacheData (get_cache_key identifier endpoint) with
  | none => simp [h]
  | some p =>
      obtain ⟨ct, cc⟩ := p
      by_cases hlt : now - ct < window_seconds <;>
        simp [h, hlt, eq_comm]
      · constructor
        · intro hc
          exact ⟨ct, ⟨rfl, hc⟩, hlt⟩
        · rintro ⟨ca, ⟨hct, hc⟩, _⟩
          exact hc
      · intro _
        omega

/-- C6: `check_limit` fails with `RateLimitExceeded` exactly when the computed
current count has reached `limit`, and the failure carries that current count,
the limit and the window length, with `reset_time = now + window_seconds` as
the retry hint computed in the deny branch. -/
theorem C6_deny_iff_count_at_limit (s : RLState) (identifier endpoint : String)
    (limit window_seconds : Nat) (strategy : String) (use_cache : Bool)
    (now : Nat) (e : RateLimitError) :
    (check_limit s identifier endpoint limit window_seconds strategy use_cache now).1
        = Except.error e ↔
      (limit ≤ current_count_of s identifier endpoint window_seconds strategy use_cache now ∧
       e = ⟨current_count_of s identifier endpoint window_seconds strategy use_cache now,
            limit, window_seconds, now + window_seconds⟩) := by
  rw [check_limit_result]
  split
  · next hle => simp [hle, eq_comm]
  · next hgt => simp [hgt]

/-- C7: a successful `check_limit` call always returns `is_allowed = true`,
`remaining = limit - (current_count + 1)` and `reset_time = now +
window_seconds`, and `remaining` is never negative. -/
theorem C7_success_shape (s : RLState) (identifier endpoint : String)
    (limit window_seconds : Nat) (strategy : String) (use_cache : Bool)
    (now : Nat) (a : Bool) (r : Int) (rt : Nat)
    (h : (check_limit s identifier endpoint limit window_seconds strategy use_cache now).1
        = Except.ok (a, r, rt)) :
    a = true ∧
    r = (limit : Int) -
        ((current_count_of s identifier endpoint window_seconds strategy use_cache now : Int) + 1) ∧
    rt = now + window_seconds ∧ 0 ≤ r := by
  rw [check_limit_result] at h
  split at h
  · exact absurd h (by simp)
  · next hgt =>
      obtain ⟨ha, hr, hrt⟩ : a = true ∧
          r = (limit : Int) -
            ((current_count_of s identifier endpoint window_seconds strategy use_cache now : Int) + 1) ∧
          rt = now + window_seconds := by
        simpa [eq_comm] using h
      refine ⟨ha, hr, hrt, ?_⟩
      rw [hr]
      omega

theorem state_after_count_nocache (s : RLState) (identifier endpoint : String)
    (window_seconds : Nat) (strategy : String) (now : Nat) :
    state_after_count s identifier endpoint window_seconds strategy false now =
      sweep_if_large s now := rfl

theorem current_count_of_nocache (s : RLState) (identifier endpoint : String)
    (window_seconds : Nat) (strategy : String) (now : Nat) :
    current_count_of s identifier endpoint window_seconds strategy false now =
      count_by_strategy s.store identifier endpoint window_seconds now strategy := by
  show count_by_strategy (sweep_if_large s now).store identifier endpoint window_seconds now strategy =
    count_by_strategy s.store identifier endpoint window_seconds now strategy
  rw [sweep_if_large_store]

theorem check_limit_nocache_cacheData (s : RLState) (identifier endpoint : String)
    (limit window_seconds : Nat) (strategy : String) (now : Nat) :
    (check_limit s identifier endpoint limit window_seconds strategy false now).2.cacheData =
      (sweep_if_large s now).cacheData := by
  rw [check_limit_eq]
  split <;> simp [state_after_count_nocache, admit_logged_state_cacheData]

theorem check_limit_nocache_cacheTtl (s : RLState) (identifier endpoint : String)
    (limit window_seconds : Nat) (strategy : String) (now : Nat) :
    (check_limit s identifier endpoint limit window_seconds strategy false now).2.cacheTtl =
      (sweep_if_large s now).cacheTtl := by
  rw [check_limit_eq]
  split <;> simp [state_after_count_nocache, admit_logged_state_cacheTtl]

/-- C10: with `use_cache = false` the decision is computed solely from the
store (it coincides with the decision from the same store and an empty cache),
the cache dicts are untouched whenever at most 1000 entries are resident, and
in every case each key's binding is either unchanged or removed by the
size-triggered sweep, removal happening only for keys whose TTL expiry has
already passed. -/
theorem C10_no_cache_write_when_disabled (s : RLState) (identifier endpoint : String)
    (limit window_seconds : Nat) (strategy : String) (now : Nat) :
    ((check_limit s identifier endpoint limit window_seconds strategy false now).1 =
      (check_limit ⟨s.store, [], []⟩ identifier endpoint limit window_seconds strategy false now).1) ∧
    (s.cacheData.length ≤ 1000 →
      (check_limit s identifier endpoint limit window_seconds strategy false now).2.cacheData
          = s.cacheData ∧
      (check_limit s identifier endpoint limit window_seconds strategy false now).2.cacheTtl
          = s.cacheTtl) ∧
    (∀ k,
      alGet (check_limit s identifier endpoint limit window_seconds strategy false now).2.cacheData k
          = alGet s.cacheData k ∨
      (alGet (check_limit s identifier endpoint limit window_seconds strategy false now).2.cacheData k
          = none ∧
       ∃ p ∈ s.cacheTtl, p.1 = k ∧ p.2 < now)) := by
  refine ⟨?_, ?_, ?_⟩
  · rw [check_limit_result, check_limit_result, current_count_of_nocache,
      current_count_of_nocache]
  · intro hsmall
    rw [check_limit_nocache_cacheData, check_limit_nocache_cacheTtl,
      sweep_if_large_of_small s now hsmall]
    exact ⟨rfl, rfl⟩
  · intro k
    rw [check_limit_nocache_cacheData]
    by_cases hlen : s.cacheData.length ≤ 1000
    · left
      rw [sweep_if_large_of_small s now hlen]
    · have : sweep_if_large s now = clean_old_cache_entries s now := by
        unfold sweep_if_large
        rw [if_pos (by omega)]
      rw [this]
      exact clean_alGet s now k

/-- Does a `check_limit` outcome represent an admitted request? -/
def isAllowedResult : CheckResult → Bool
  | Except.ok _ => true
  | Except.error _ => false

/-- Count of all stored records carrying a given key, over the full history
(no time filter). -/
def countPair (store : List Record) (identifier endpoint : String) : Nat :=
  store.countP (fun r => decide (r.identifier = identifier ∧ r.endpoint = endpoint))

/-- Number of admitted calls for a key in a run, pairing each call of the
sequence with its outcome. -/
def admitsFor (identifier endpoint : String) : List Call → List CheckResult → Nat
  | c :: cs, r :: rs =>
      (if c.identifier = identifier ∧ c.endpoint = endpoint ∧ isAllowedResult r = true
       then 1 else 0) + admitsFor identifier endpoint cs rs
  | _, _ => 0

theorem set_cache_store (s : RLState) (identifier endpoint : String)
    (count window_seconds now : Nat) :
    (set_cache s identifier endpoint count window_seconds now).store = s.store := rfl

theorem state_after_count_store (s : RLState) (identifier endpoint : String)
    (window_seconds : Nat) (strategy : String) (use_cache : Bool) (now : Nat) :
    (state_after_count s identifier endpoint window_seconds strategy use_cache now).store =
      s.store := by
  unfold state_after_count
  cases hc : (if use_cache then
      get_from_cache (sweep_if_large s now) identifier endpoint window_seconds now
    else none) with
  | some c =>
      simp only [hc]
      exact sweep_if_large_store s now
  | none =>
      simp only [hc]
      by_cases huc : use_cache <;>
        simp [huc, set_cache_store, sweep_if_large_store]

/-- Single-call store effect: an admitted call appends exactly the one record
`(identifier, endpoint, now)`; a denied call appends nothing. -/
theorem check_limit_store_effect (s : RLState) (identifier endpoint : String)
    (limit window_seconds : Nat) (strategy : String) (use_cache : Bool) (now : Nat) :
    (check_limit s identifier endpoint limit window_seconds strategy use_cache now).2.store =
      if isAllowedResult
          (check_limit s identifier endpoint limit window_seconds strategy use_cache now).1 = true
      then s.store ++ [⟨identifier, endpoint, now⟩]
      else s.store := by
  rw [check_limit_eq]
  split
  · simp [isAllowedResult, state_after_count_store]
  · by_cases huc : use_cache <;>
      simp [huc, isAllowedResult, set_cache_store, admit_logged_state_store,
        state_after_count_store]

theorem runSeq_countPair (use_cache : Bool) (calls : List Call) (s : RLState)
    (identifier endpoint : String) :
    countPair ((runSeq use_cache calls s).2.store) identifier endpoint =
      countPair s.store identifier endpoint +
        admitsFor identifier endpoint calls (runSeq use_cache calls s).1 := by
  induction calls generalizing s with
  | nil => simp [runSeq, admitsFor]
  | cons c cs ih =>
      simp only [runSeq]
      rw [ih, admitsFor]
      have hst := check_limit_store_effect s c.identifier c.endpoint c.limit
        c.window_seconds c.strategy use_cache c.now
      by_cases hok : isAllowedResult
          (check_limit s c.identifier c.endpoint c.limit c.window_seconds
            c.strategy use_cache c.now).1 = true
      · rw [if_pos hok] at hst
        rw [hst]
        unfold countPair
        rw [List.countP_append]
        by_cases hkey : c.identifier = identifier ∧ c.endpoint = endpoint
        · rw [if_pos ⟨hkey.1, hkey.2, hok⟩]
          have hone : (([⟨c.identifier, c.endpoint, c.now⟩] : List Record).countP
              (fun r => decide (r.identifier = identifier ∧ r.endpoint = endpoint))) = 1 := by
            simp [hkey.1, hkey.2]
          rw [hone]
          omega
        · rw [if_neg (by tauto)]
          have hzero : (([⟨c.identifier, c.endpoint, c.now⟩] : List Record).countP
              (fun r => decide (r.identifier = identifier ∧ r.endpoint = endpoint))) = 0 := by
            simp only [List.countP_cons, List.countP_nil]
            rw [if_neg (by simpa using hkey)]
          rw [hzero]
          omega
      · rw [if_neg hok] at hst
        rw [hst, if_neg (by tauto)]
        omega

theorem alSet_length_le {α : Type} (l : List (String × α)) (k : String) (v : α) :
    (alSet l k v).length ≤ l.length + 1 := by
  unfold alSet
  simp only [List.length_cons]
  exact Nat.succ_le_succ (List.length_filter_le _ _)

theorem alSet_alSet {α : Type} (l : List (String × α)) (k : String) (v v' : α) :
    alSet (alSet l k v) k v' = alSet l k v' := by
  unfold alSet
  congr 1
  rw [List.filter_cons_of_neg (by simp), List.filter_filter]
  apply List.filter_congr
  intro x _
  simp

theorem get_from_cache_congr (s s' : RLState) (identifier endpoint : String)
    (window_seconds now : Nat)
    (h : alGet s'.cacheData (get_cache_key identifier endpoint) =
      alGet s.cacheData (get_cache_key identifier endpoint)) :
    get_from_cache s' identifier endpoint window_seconds now =
      get_from_cache s identifier endpoint window_seconds now := by
  unfold get_from_cache
  rw [h]

theorem count_by_strategy_append_other (store : List Record) (rid rep : String)
    (t : Nat) (identifier endpoint : String) (window_seconds now : Nat)
    (strategy : String) (h : ¬(rid = identifier ∧ rep = endpoint)) :
    count_by_strategy (store ++ [⟨rid, rep, t⟩]) identifier endpoint
        window_seconds now strategy =
      count_by_strategy store identifier endpoint window_seconds now strategy := by
  unfold count_by_strategy count_requests_sliding_window count_requests_fixed_window
  split <;>
  · rw [List.countP_append]
    simp only [List.countP_cons, List.countP_nil]
    rw [if_neg (by simp only [decide_eq_true_eq]; tauto)]
    omega

theorem check_limit_state (s : RLState) (identifier endpoint : String)
    (limit window_seconds : Nat) (strategy : String) (use_cache : Bool) (now : Nat) :
    (check_limit s identifier endpoint limit window_seconds strategy use_cache now).2 =
      if limit ≤ current_count_of s identifier endpoint window_seconds strategy use_cache now then
        state_after_count s identifier endpoint window_seconds strategy use_cache now
      else
        (if use_cache then
          set_cache
            (admit_logged_state s identifier endpoint window_seconds strategy use_cache now)
            identifier endpoint
            (current_count_of s identifier endpoint window_seconds strategy use_cache now + 1)
            window_seconds now
        else admit_logged_state s identifier endpoint window_seconds strategy use_cache now) := by
  rw [check_limit_eq]
  split <;> rfl

theorem set_cache_cacheData (s : RLState) (identifier endpoint : String)
    (count window_seconds now : Nat) :
    (set_cache s identifier endpoint count window_seconds now).cacheData =
      alSet s.cacheData (get_cache_key identifier endpoint) (now, count) := rfl

theorem state_after_count_cacheData_cases (s : RLState) (identifier endpoint : String)
    (window_seconds : Nat) (strategy : String) (use_cache : Bool) (now : Nat)
    (hsize : s.cacheData.length ≤ 1000) :
    (state_after_count s identifier endpoint window_seconds strategy use_cache now).cacheData
        = s.cacheData ∨
    ∃ v, (state_after_count s identifier endpoint window_seconds strategy use_cache now).cacheData
        = alSet s.cacheData (get_cache_key identifier endpoint) v := by
  unfold state_after_count
  rw [sweep_if_large_of_small s now hsize]
  cases hc : (if use_cache then get_from_cache s identifier endpoint window_seconds now
      else none) with
  | some c =>
      simp only [hc]
      left
      trivial
  | none =>
      simp only [hc]
      cases use_cache
      · rw [if_neg (by simp)]
        left
        trivial
      · rw [if_pos rfl]
        exact Or.inr ⟨_, rfl⟩

theorem check_limit_cacheData_cases (s : RLState) (identifier endpoint : String)
    (limit window_seconds : Nat) (strategy : String) (use_cache : Bool) (now : Nat)
    (hsize : s.cacheData.length ≤ 1000) :
    (check_limit s identifier endpoint limit window_seconds strategy use_cache now).2.cacheData
        = s.cacheData ∨
    ∃ v, (check_limit s identifier endpoint limit window_seconds strategy use_cache now).2.cacheData
        = alSet s.cacheData (get_cache_key identifier endpoint) v := by
  rw [check_limit_state]
  rcases state_after_count_cacheData_cases s identifier endpoint window_seconds
      strategy use_cache now hsize with hmid | ⟨v, hmid⟩
  · split
    · exact Or.inl hmid
    · cases use_cache
      · refine Or.inl ?_
        rw [if_neg (by simp), admit_logged_state_cacheData, hmid]
      · refine Or.inr
          ⟨(now, current_count_of s identifier endpoint window_seconds strategy true now + 1), ?_⟩
        rw [if_pos rfl, set_cache_cacheData, admit_logged_state_cacheData, hmid]
  · split
    · exact Or.inr ⟨v, hmid⟩
    · cases use_cache
      · refine Or.inr ⟨v, ?_⟩
        rw [if_neg (by simp), admit_logged_state_cacheData, hmid]
      · refine Or.inr
          ⟨(now, current_count_of s identifier endpoint window_seconds strategy true now + 1), ?_⟩
        rw [if_pos rfl, set_cache_cacheData, admit_logged_state_cacheData, hmid,
          alSet_alSet]

theorem current_count_congr (s s' : RLState) (identifier endpoint : String)
    (window_seconds : Nat) (strategy : String) (use_cache : Bool) (now : Nat)
    (hsize : s.cacheData.length ≤ 1000) (hsize' : s'.cacheData.length ≤ 1000)
    (hcache : alGet s'.cacheData (get_cache_key identifier endpoint) =
      alGet s.cacheData (get_cache_key identifier endpoint))
    (hstore : count_by_strategy s'.store identifier endpoint window_seconds now strategy =
      count_by_strategy s.store identifier endpoint window_seconds now strategy) :
    current_count_of s' identifier endpoint window_seconds strategy use_cache now =
      current_count_of s identifier endpoint window_seconds strategy use_cache now := by
  unfold current_count_of
  rw [sweep_if_large_of_small s now hsize, sweep_if_large_of_small s' now hsize',
    get_from_cache_congr s s' identifier endpoint window_seconds now hcache]
  cases hx : (if use_cache then get_from_cache s identifier endpoint window_seconds now
      else none) with
  | some c => simp only [hx]
  | none =>
      simp only [hx]
      exact hstore

/-- C3 counterexample: the cache key joins identifier and endpoint with `:`
and no escaping, so the distinct keys `("a:b", "c")` and `("a", "b:c")` share
the cache key `"ratelimit:a:b:c"`. After an admitted call for `("a:b", "c")`
(which caches count 1), a call for `("a", "b:c")` with `limit = 1` at the
same instant hits that cached count and is denied, although without the first
call it is admitted — so an admit for one key changed the decision for the
other. -/
theorem C3_counterexample_colliding_cache_keys :
    (check_limit (check_limit initState "a:b" "c" 1 60 "sliding" true 0).2
        "a" "b:c" 1 60 "sliding" true 0).1 ≠
      (check_limit initState "a" "b:c" 1 60 "sliding" true 0).1 := by
  have h1 : (check_limit (check_limit initState "a:b" "c" 1 60 "sliding" true 0).2
      "a" "b:c" 1 60 "sliding" true 0).1 = Except.error ⟨1, 1, 60, 60⟩ := by rfl
  have h2 : (check_limit initState "a" "b:c" 1 60 "sliding" true 0).1 =
      Except.ok (true, 0, 60) := by rfl
  rw [h1, h2]
  simp

/-- C3 amended: distinct (identifier, endpoint) keys whose colon-joined cache
keys also differ never share a counted window, provided fewer than 1000 cache
entries are resident (so the size-triggered sweep cannot fire): a
`check_limit` call for one key leaves the outcome (decision, remaining count
and reset time) of a subsequent call for the other key exactly as it would
have been without it, whatever `use_cache` is in either call. Key pairs whose
colon-joins coincide (e.g. `("a:b","c")` and `("a","b:c")`) can share a cache
entry, and then an admit for one can change the other's decision. -/
theorem C3_key_isolation (s : RLState) (i1 e1 i2 e2 : String)
    (l1 w1 l2 w2 : Nat) (st1 st2 : String) (uc1 uc2 : Bool) (t1 t2 : Nat)
    (hkey : get_cache_key i1 e1 ≠ get_cache_key i2 e2)
    (hsize : s.cacheData.length ≤ 999) :
    (check_limit (check_limit s i1 e1 l1 w1 st1 uc1 t1).2
        i2 e2 l2 w2 st2 uc2 t2).1 =
      (check_limit s i2 e2 l2 w2 st2 uc2 t2).1 := by
  have hs1000 : s.cacheData.length ≤ 1000 := by omega
  have hpair : ¬(i1 = i2 ∧ e1 = e2) := by
    rintro ⟨rfl, rfl⟩
    exact hkey rfl
  have hcacheCases := check_limit_cacheData_cases s i1 e1 l1 w1 st1 uc1 t1 hs1000
  have hcache : alGet (check_limit s i1 e1 l1 w1 st1 uc1 t1).2.cacheData
      (get_cache_key i2 e2) = alGet s.cacheData (get_cache_key i2 e2) := by
    rcases hcacheCases with h | ⟨v, h⟩
    · rw [h]
    · rw [h]
      exact alGet_alSet_ne _ _ _ _ (Ne.symm hkey)
  have hsize' : (check_limit s i1 e1 l1 w1 st1 uc1 t1).2.cacheData.length ≤ 1000 := by
    rcases hcacheCases with h | ⟨v, h⟩
    · rw [h]; omega
    · rw [h]
      have := alSet_length_le s.cacheData (get_cache_key i1 e1) v
      omega
  have hstore : count_by_strategy (check_limit s i1 e1 l1 w1 st1 uc1 t1).2.store
      i2 e2 w2 t2 st2 = count_by_strategy s.store i2 e2 w2 t2 st2 := by
    have hst := check_limit_store_effect s i1 e1 l1 w1 st1 uc1 t1
    by_cases hok : isAllowedResult (check_limit s i1 e1 l1 w1 st1 uc1 t1).1 = true
    · rw [if_pos hok] at hst
      rw [hst]
      exact count_by_strategy_append_other s.store i1 e1 t1 i2 e2 w2 t2 st2 hpair
    · rw [if_neg hok] at hst
      rw [hst]
  rw [check_limit_result, check_limit_result,
    current_count_congr s (check_limit s i1 e1 l1 w1 st1 uc1 t1).2 i2 e2 w2 st2 uc2 t2
      hs1000 hsize' hcache hstore]

theorem C3_key_isolation_witness :
    (check_limit (check_limit initState "u1" "/a" 1 60 "sliding" true 0).2
        "u2" "/a" 1 60 "sliding" true 0).1 =
      (check_limit initState "u2" "/a" 1 60 "sliding" true 0).1 :=
  C3_key_isolation initState "u1" "/a" "u2" "/a" 1 60 1 60 "sliding" "sliding"
    true true 0 0 (by decide) (by decide)

/-- C4: every admitted `check_limit` call appends exactly one record
`(identifier, endpoint, now)` to the store and a denied call appends none, so
after any sequence of calls the store count for a key has grown by exactly
the number of admits issued for that key. -/
theorem C4_one_record_per_allowed_call :
    (∀ (s : RLState) (identifier endpoint : String)
        (limit window_seconds : Nat) (strategy : String) (use_cache : Bool) (now : Nat),
      (check_limit s identifier endpoint limit window_seconds strategy use_cache now).2.store =
        if isAllowedResult
            (check_limit s identifier endpoint limit window_seconds strategy use_cache now).1 = true
        then s.store ++ [⟨identifier, endpoint, now⟩]
        else s.store) ∧
    (∀ (use_cache : Bool) (calls : List Call) (s : RLState) (identifier endpoint : String),
      countPair ((runSeq use_cache calls s).2.store) identifier endpoint =
        countPair s.store identifier endpoint +
          admitsFor identifier endpoint calls (runSeq use_cache calls s).1) :=
  ⟨check_limit_store_effect, runSeq_countPair⟩

theorem RLState_ext {a b : RLState} (h1 : a.store = b.store)
    (h2 : a.cacheData = b.cacheData) (h3 : a.cacheTtl = b.cacheTtl) : a = b := by
  cases a
  cases b
  simp_all

theorem alGet_singleton_same {α : Type} (k : String) (v : α) :
    alGet [(k, v)] k = some v := by
  unfold alGet
  rw [List.find?_cons_of_pos _ (by simp)]
  rfl

theorem alSet_all_same {α : Type} (l : List (String × α)) (k0 : String) (v : α)
    (h : ∀ p ∈ l, p.1 = k0) : alSet l k0 v = [(k0, v)] := by
  unfold alSet
  rw [List.filter_eq_nil_iff.mpr]
  intro p hp
  simp [h p hp]

theorem alSet_keys_all {α : Type} (l : List (String × α)) (k0 : String) (v : α)
    (h : ∀ p ∈ l, p.1 = k0) : ∀ p ∈ alSet l k0 v, p.1 = k0 := by
  intro p hp
  rcases List.mem_cons.mp hp with h1 | h1
  · rw [h1]
  · exact h p (List.mem_filter.mp h1).1

/-- Invariant state for the C1 scenario: starting from a store with no records
for the key and empty cache dicts, after `k` admitted calls at times
`ts 0, …, ts (k-1)` the store holds the `k` appended records and (when
caching) the single cache entry written by the last admit. -/
def C1state (s0 : RLState) (identifier endpoint : String) (window_seconds : Nat)
    (use_cache : Bool) (ts : Nat → Nat) (k : Nat) : RLState :=
  { store := s0.store ++ (List.range k).map (fun j => ⟨identifier, endpoint, ts j⟩),
    cacheData := if use_cache = true ∧ 0 < k
      then [(get_cache_key identifier endpoint, (ts (k - 1), k))] else [],
    cacheTtl := if use_cache = true ∧ 0 < k
      then [(get_cache_key identifier endpoint, ts (k - 1) + window_seconds)] else [] }

theorem C1state_cacheData_small (s0 : RLState) (identifier endpoint : String)
    (window_seconds : Nat) (use_cache : Bool) (ts : Nat → Nat) (k : Nat) :
    (C1state s0 identifier endpoint window_seconds use_cache ts k).cacheData.length ≤ 1000 := by
  unfold C1state
  dsimp only
  split <;> simp

theorem C1state_cacheData_keys (s0 : RLState) (identifier endpoint : String)
    (window_seconds : Nat) (use_cache : Bool) (ts : Nat → Nat) (k : Nat) :
    ∀ p ∈ (C1state s0 identifier endpoint window_seconds use_cache ts k).cacheData,
      p.1 = get_cache_key identifier endpoint := by
  unfold C1state
  dsimp only
  split <;> simp

theorem C1state_cacheTtl_keys (s0 : RLState) (identifier endpoint : String)
    (window_seconds : Nat) (use_cache : Bool) (ts : Nat → Nat) (k : Nat) :
    ∀ p ∈ (C1state s0 identifier endpoint window_seconds use_cache ts k).cacheTtl,
      p.1 = get_cache_key identifier endpoint := by
  unfold C1state
  dsimp only
  split <;> simp

/-- In the C1 scenario all `k` appended records fall inside the sliding window
of the call at time `ts k`, and no pre-existing record matches the key, so
the sliding count at `ts k` is exactly `k`. -/
theorem C1_count (s0 : RLState) (identifier endpoint : String)
    (window_seconds : Nat) (ts : Nat → Nat) (n k : Nat)
    (hstore : ∀ r ∈ s0.store, ¬(r.identifier = identifier ∧ r.endpoint = endpoint))
    (hmono : ∀ a b, a ≤ b → b ≤ n → ts a ≤ ts b)
    (hwin : ts n ≤ ts 0 + window_seconds) (hk : k ≤ n) :
    count_requests_sliding_window
        (s0.store ++ (List.range k).map (fun j => ⟨identifier, endpoint, ts j⟩))
        identifier endpoint window_seconds (ts k) = k := by
  unfold count_requests_sliding_window
  rw [List.countP_append]
  have h0 : s0.store.countP (fun r => decide (r.identifier = identifier ∧
      r.endpoint = endpoint ∧ ts k - window_seconds ≤ r.timestamp ∧
      r.timestamp ≤ ts k)) = 0 := by
    rw [List.countP_eq_zero]
    intro r hr
    simp only [decide_eq_true_eq]
    intro hcontra
    exact hstore r hr ⟨hcontra.1, hcontra.2.1⟩
  have h1 : ((List.range k).map
      (fun j => (⟨identifier, endpoint, ts j⟩ : Record))).countP
      (fun r => decide (r.identifier = identifier ∧ r.endpoint = endpoint ∧
        ts k - window_seconds ≤ r.timestamp ∧ r.timestamp ≤ ts k)) = k := by
    rw [List.countP_map]
    have hall : ∀ j ∈ List.range k,
        (fun r => decide (r.identifier = identifier ∧ r.endpoint = endpoint ∧
          ts k - window_seconds ≤ r.timestamp ∧ r.timestamp ≤ ts k))
          ((fun j => (⟨identifier, endpoint, ts j⟩ : Record)) j) = true := by
      intro j hj
      have hjk : j < k := List.mem_range.mp hj
      simp only [decide_eq_true_eq]
      refine ⟨by trivial, by trivial, ?_, ?_⟩
      · have ha : ts 0 ≤ ts j := hmono 0 j (Nat.zero_le j) (by omega)
        have hb : ts k ≤ ts n := hmono k n hk (le_refl n)
        omega
      · exact hmono j k (le_of_lt hjk) hk
    calc ((List.range k).countP _) = (List.range k).length :=
          List.countP_eq_length.mpr hall
      _ = k := List.length_range k
  rw [h0, h1]
  omega


/-- The `current_count` seen by the call at time `ts k` in the C1 scenario is
exactly `k`, whether it comes from the cache entry written by the previous
admit (when still fresh) or from a fresh sliding-window query. -/
theorem C1_current_count (s0 : RLState) (identifier endpoint : String)
    (window_seconds : Nat) (use_cache : Bool) (ts : Nat → Nat) (n k : Nat)
    (hstore : ∀ r ∈ s0.store, ¬(r.identifier = identifier ∧ r.endpoint = endpoint))
    (hmono : ∀ a b, a ≤ b → b ≤ n → ts a ≤ ts b)
    (hwin : ts n ≤ ts 0 + window_seconds) (hk : k ≤ n) :
    current_count_of (C1state s0 identifier endpoint window_seconds use_cache ts k)
      identifier endpoint window_seconds "sliding" use_cache (ts k) = k := by
  unfold current_count_of
  rw [sweep_if_large_of_small _ _ (C1state_cacheData_small s0 identifier endpoint
    window_seconds use_cache ts k)]
  have hcount : count_by_strategy
      (C1state s0 identifier endpoint window_seconds use_cache ts k).store
      identifier endpoint window_seconds (ts k) "sliding" = k := by
    unfold count_by_strategy
    rw [if_pos rfl]
    exact C1_count s0 identifier endpoint window_seconds ts n k hstore hmono hwin hk
  cases use_cache with
  | false =>
      rw [if_neg (by simp)]
      exact hcount
  | true =>
      rw [if_pos rfl]
      rcases Nat.eq_zero_or_pos k with hk0 | hkpos
      · subst hk0
        have hnone : get_from_cache
            (C1state s0 identifier endpoint window_seconds true ts 0)
            identifier endpoint window_seconds (ts 0) = none := by
          unfold get_from_cache C1state
          dsimp only
          rw [if_neg (by simp)]
          rfl
        rw [hnone]
        exact hcount
      · have hget : alGet (C1state s0 identifier endpoint window_seconds true ts
            k).cacheData (get_cache_key identifier endpoint) =
            some (ts (k - 1), k) := by
          unfold C1state
          dsimp only
          rw [if_pos ⟨rfl, hkpos⟩]
          exact alGet_singleton_same _ _
        by_cases hfresh : ts k - ts (k - 1) < window_seconds
        · have hsome : get_from_cache
              (C1state s0 identifier endpoint window_seconds true ts k)
              identifier endpoint window_seconds (ts k) = some k := by
            unfold get_from_cache
            simp only [hget]
            rw [if_pos hfresh]
          rw [hsome]
        · have hnone : get_from_cache
              (C1state s0 identifier endpoint window_seconds true ts k)
              identifier endpoint window_seconds (ts k) = none := by
            unfold get_from_cache
            simp only [hget]
            rw [if_neg hfresh]
          rw [hnone]
          exact hcount

theorem set_cache_cacheTtl (s : RLState) (identifier endpoint : String)
    (count window_seconds now : Nat) :
    (set_cache s identifier endpoint count window_seconds now).cacheTtl =
      alSet s.cacheTtl (get_cache_key identifier endpoint) (now + window_seconds) := rfl

theorem state_after_count_cases (s : RLState) (identifier endpoint : String)
    (window_seconds : Nat) (strategy : String) (use_cache : Bool) (now : Nat) :
    state_after_count s identifier endpoint window_seconds strategy use_cache now =
        sweep_if_large s now ∨
    state_after_count s identifier endpoint window_seconds strategy use_cache now =
        set_cache (sweep_if_large s now) identifier endpoint
          (count_by_strategy (sweep_if_large s now).store identifier endpoint
            window_seconds now strategy) window_seconds now := by
  unfold state_after_count
  cases hc : (if use_cache then
      get_from_cache (sweep_if_large s now) identifier endpoint window_seconds now
    else none) with
  | some c =>
      simp only [hc]
      left
      trivial
  | none =>
      simp only [hc]
      cases use_cache
      · rw [if_neg (by simp)]
        left
        trivial
      · rw [if_pos rfl]
        right
        trivial

theorem C1store_succ (s0 : RLState) (identifier endpoint : String)
    (ts : Nat → Nat) (k : Nat) :
    (s0.store ++ (List.range k).map (fun j => (⟨identifier, endpoint, ts j⟩ : Record)))
        ++ [⟨identifier, endpoint, ts k⟩] =
      s0.store ++ (List.range (k + 1)).map
        (fun j => (⟨identifier, endpoint, ts j⟩ : Record)) := by
  rw [List.range_succ, List.map_append, List.append_assoc]
  rfl

/-- One admitted step of the C1 scenario: the call at time `ts k` (with `k`
prior admits) succeeds with `remaining = limit - (k + 1)` and moves the state
to the `k + 1`-admit invariant state. -/
theorem C1_step_admit (s0 : RLState) (identifier endpoint : String)
    (limit window_seconds : Nat) (use_cache : Bool) (ts : Nat → Nat) (k : Nat)
    (hstore : ∀ r ∈ s0.store, ¬(r.identifier = identifier ∧ r.endpoint = endpoint))
    (hmono : ∀ a b, a ≤ b → b ≤ limit → ts a ≤ ts b)
    (hwin : ts limit ≤ ts 0 + window_seconds) (hk : k < limit) :
    check_limit (C1state s0 identifier endpoint window_seconds use_cache ts k)
        identifier endpoint limit window_seconds "sliding" use_cache (ts k) =
      (Except.ok (true, (limit : Int) - ((k : Int) + 1), ts k + window_seconds),
       C1state s0 identifier endpoint window_seconds use_cache ts (k + 1)) := by
  have hcc := C1_current_count s0 identifier endpoint window_seconds use_cache ts
    limit k hstore hmono hwin (le_of_lt hk)
  rw [check_limit_eq, hcc, if_neg (by omega)]
  congr 1
  cases use_cache with
  | false =>
      rw [if_neg (by simp)]
      apply RLState_ext
      · rw [admit_logged_state_store, state_after_count_store]
        exact C1store_succ s0 identifier endpoint ts k
      · rw [admit_logged_state_cacheData, state_after_count_nocache,
          sweep_if_large_of_small _ _ (C1state_cacheData_small s0 identifier
            endpoint window_seconds false ts k)]
        unfold C1state
        dsimp only
        rw [if_neg (by simp), if_neg (by simp)]
      · rw [admit_logged_state_cacheTtl, state_after_count_nocache,
          sweep_if_large_of_small _ _ (C1state_cacheData_small s0 identifier
            endpoint window_seconds false ts k)]
        unfold C1state
        dsimp only
        rw [if_neg (by simp), if_neg (by simp)]
  | true =>
      rw [if_pos rfl]
      have hsmall := C1state_cacheData_small s0 identifier endpoint window_seconds
        true ts k
      have hkeysD : ∀ p ∈ (state_after_count
          (C1state s0 identifier endpoint window_seconds true ts k)
          identifier endpoint window_seconds "sliding" true (ts k)).cacheData,
          p.1 = get_cache_key identifier endpoint := by
        rcases state_after_count_cases
            (C1state s0 identifier endpoint window_seconds true ts k)
            identifier endpoint window_seconds "sliding" true (ts k) with hcase | hcase <;>
          rw [hcase, sweep_if_large_of_small _ _ hsmall]
        · exact C1state_cacheData_keys s0 identifier endpoint window_seconds true ts k
        · rw [set_cache_cacheData]
          exact alSet_keys_all _ _ _
            (C1state_cacheData_keys s0 identifier endpoint window_seconds true ts k)
      have hkeysT : ∀ p ∈ (state_after_count
          (C1state s0 identifier endpoint window_seconds true ts k)
          identifier endpoint window_seconds "sliding" true (ts k)).cacheTtl,
          p.1 = get_cache_key identifier endpoint := by
        rcases state_after_count_cases
            (C1state s0 identifier endpoint window_seconds true ts k)
            identifier endpoint window_seconds "sliding" true (ts k) with hcase | hcase <;>
          rw [hcase, sweep_if_large_of_small _ _ hsmall]
        · exact C1state_cacheTtl_keys s0 identifier endpoint window_seconds true ts k
        · rw [set_cache_cacheTtl]
          exact alSet_keys_all _ _ _
            (C1state_cacheTtl_keys s0 identifier endpoint window_seconds true ts k)
      apply RLState_ext
      · rw [set_cache_store, admit_logged_state_store, state_after_count_store]
        exact C1store_succ s0 identifier endpoint ts k
      · rw [set_cache_cacheData, admit_logged_state_cacheData,
          alSet_all_same _ _ _ hkeysD]
        unfold C1state
        dsimp only
        rw [if_pos ⟨rfl, Nat.succ_pos k⟩]
        simp
      · rw [set_cache_cacheTtl, admit_logged_state_cacheTtl,
          alSet_all_same _ _ _ hkeysT]
        unfold C1state
        dsimp only
        rw [if_pos ⟨rfl, Nat.succ_pos k⟩]
        simp

/-- The denying step of the C1 scenario: after `limit` admits, the call at
time `ts limit` fails with `currentCount = limit`. -/
theorem C1_step_deny (s0 : RLState) (identifier endpoint : String)
    (limit window_seconds : Nat) (use_cache : Bool) (ts : Nat → Nat)
    (hstore : ∀ r ∈ s0.store, ¬(r.identifier = identifier ∧ r.endpoint = endpoint))
    (hmono : ∀ a b, a ≤ b → b ≤ limit → ts a ≤ ts b)
    (hwin : ts limit ≤ ts 0 + window_seconds) :
    (check_limit (C1state s0 identifier endpoint window_seconds use_cache ts limit)
        identifier endpoint limit window_seconds "sliding" use_cache (ts limit)).1 =
      Except.error ⟨limit, limit, window_seconds, ts limit + window_seconds⟩ := by
  rw [check_limit_result,
    C1_current_count s0 identifier endpoint window_seconds use_cache ts limit limit
      hstore hmono hwin (le_refl limit),
    if_pos (le_refl limit)]

theorem C1_run (s0 : RLState) (identifier endpoint : String)
    (limit window_seconds : Nat) (use_cache : Bool) (ts : Nat → Nat)
    (hstore : ∀ r ∈ s0.store, ¬(r.identifier = identifier ∧ r.endpoint = endpoint))
    (hmono : ∀ a b, a ≤ b → b ≤ limit → ts a ≤ ts b)
    (hwin : ts limit ≤ ts 0 + window_seconds) :
    ∀ (n k : Nat), k + n = limit + 1 →
      (runSeq use_cache
        ((List.range' k n).map (fun j =>
          (⟨identifier, endpoint, limit, window_seconds, "sliding", ts j⟩ : Call)))
        (C1state s0 identifier endpoint window_seconds use_cache ts k)).1 =
      (List.range' k n).map (fun j =>
        if j < limit then
          Except.ok (true, (limit : Int) - ((j : Int) + 1), ts j + window_seconds)
        else Except.error ⟨limit, limit, window_seconds, ts j + window_seconds⟩) := by
  intro n
  induction n with
  | zero =>
      intro k hk
      rfl
  | succ m ih =>
      intro k hk
      by_cases hkl : k < limit
      · have hstep := C1_step_admit s0 identifier endpoint limit window_seconds
          use_cache ts k hstore hmono hwin hkl
        simp only [List.range', List.map_cons, runSeq, hstep]
        rw [ih (k + 1) (by omega)]
        rw [if_pos hkl]
      · have hkeq : k = limit := by omega
        have hm : m = 0 := by omega
        subst hm
        rw [hkeq]
        have hstep := C1_step_deny s0 identifier endpoint limit window_seconds
          use_cache ts hstore hmono hwin
        simp only [List.range', List.map_cons, List.map_nil, runSeq, hstep]
        rw [if_neg (by omega)]

/-- C1: starting from a store with no records for the key and an empty cache,
for every key, positive limit and positive window, `limit` consecutive calls
made within one window (sliding strategy, any cache mode) all succeed with
`remaining` equal to `limit-1, limit-2, …, 0` in order, and the
`(limit+1)`-th call within the same window fails with `RateLimitExceeded`
reporting `currentCount = limit`. -/
theorem C1_fill_window_then_deny (s0 : RLState) (identifier endpoint : String)
    (limit window_seconds : Nat) (use_cache : Bool) (ts : Nat → Nat)
    (hlimit : 0 < limit) (hwindow : 0 < window_seconds)
    (hstore : ∀ r ∈ s0.store, ¬(r.identifier = identifier ∧ r.endpoint = endpoint))
    (hcacheD : s0.cacheData = []) (hcacheT : s0.cacheTtl = [])
    (hmono : ∀ a b, a ≤ b → b ≤ limit → ts a ≤ ts b)
    (hwin : ts limit ≤ ts 0 + window_seconds) :
    (runSeq use_cache
        ((List.range (limit + 1)).map (fun j =>
          (⟨identifier, endpoint, limit, window_seconds, "sliding", ts j⟩ : Call)))
        s0).1 =
      (List.range (limit + 1)).map (fun j =>
        if j < limit then
          Except.ok (true, (limit : Int) - ((j : Int) + 1), ts j + window_seconds)
        else Except.error ⟨limit, limit, window_seconds, ts j + window_seconds⟩) := by
  have hs0 : s0 = C1state s0 identifier endpoint window_seconds use_cache ts 0 := by
    apply RLState_ext
    · simp [C1state]
    · simp [C1state, hcacheD]
    · simp [C1state, hcacheT]
  rw [List.range_eq_range']
  conv_lhs => rw [hs0]
  exact C1_run s0 identifier endpoint limit window_seconds use_cache ts
    hstore hmono hwin (limit + 1) 0 (by omega)

theorem C1_fill_window_then_deny_witness :
    (runSeq true
        ((List.range (2 + 1)).map (fun j =>
          (⟨"ip1", "/api/ping/", 2, 60, "sliding", j⟩ : Call)))
        initState).1 =
      (List.range (2 + 1)).map (fun (j : Nat) =>
        if j < 2 then
          (Except.ok (true, (2 : Int) - ((j : Int) + 1), j + 60) : CheckResult)
        else Except.error ⟨2, 2, 60, j + 60⟩) :=
  C1_fill_window_then_deny initState "ip1" "/api/ping/" 2 60 true (fun j => j)
    (by decide) (by decide) (by simp [initState]) rfl rfl
    (fun a b h _ => h) (by decide)

theorem get_from_cache_of_empty (s : RLState) (identifier endpoint : String)
    (window_seconds now : Nat) (h : s.cacheData = []) :
    get_from_cache s identifier endpoint window_seconds now = none := by
  unfold get_from_cache
  rw [show alGet s.cacheData (get_cache_key identifier endpoint) = none by
    rw [h]; rfl]

theorem get_from_cache_of_singleton_fresh (s : RLState) (identifier endpoint : String)
    (window_seconds now ct c : Nat)
    (h : s.cacheData = [(get_cache_key identifier endpoint, (ct, c))])
    (hfresh : now - ct < window_seconds) :
    get_from_cache s identifier endpoint window_seconds now = some c := by
  unfold get_from_cache
  rw [show alGet s.cacheData (get_cache_key identifier endpoint) = some (ct, c) by
    rw [h]; exact alGet_singleton_same _ _]
  show (if now - ct < window_seconds then some c else none) = some c
  rw [if_pos hfresh]

theorem current_count_of_hit (s : RLState) (identifier endpoint : String)
    (window_seconds : Nat) (strategy : String) (now c : Nat)
    (h : get_from_cache (sweep_if_large s now) identifier endpoint window_seconds now
      = some c) :
    current_count_of s identifier endpoint window_seconds strategy true now = c := by
  unfold current_count_of
  simp [h]

theorem current_count_of_miss (s : RLState) (identifier endpoint : String)
    (window_seconds : Nat) (strategy : String) (now : Nat)
    (h : get_from_cache (sweep_if_large s now) identifier endpoint window_seconds now
      = none) :
    current_count_of s identifier endpoint window_seconds strategy true now =
      count_by_strategy (sweep_if_large s now).store identifier endpoint
        window_seconds now strategy := by
  unfold current_count_of
  simp [h]

theorem state_after_count_hit (s : RLState) (identifier endpoint : String)
    (window_seconds : Nat) (strategy : String) (now c : Nat)
    (h : get_from_cache (sweep_if_large s now) identifier endpoint window_seconds now
      = some c) :
    state_after_count s identifier endpoint window_seconds strategy true now =
      sweep_if_large s now := by
  unfold state_after_count
  simp [h]

theorem state_after_count_miss (s : RLState) (identifier endpoint : String)
    (window_seconds : Nat) (strategy : String) (now : Nat)
    (h : get_from_cache (sweep_if_large s now) identifier endpoint window_seconds now
      = none) :
    state_after_count s identifier endpoint window_seconds strategy true now =
      set_cache (sweep_if_large s now) identifier endpoint
        (count_by_strategy (sweep_if_large s now).store identifier endpoint
          window_seconds now strategy) window_seconds now := by
  unfold state_after_count
  simp [h]

theorem sliding_count_append_self (store : List Record)
    (identifier endpoint : String) (window_seconds t : Nat) :
    count_requests_sliding_window (store ++ [⟨identifier, endpoint, t⟩])
        identifier endpoint window_seconds t =
      count_requests_sliding_window store identifier endpoint window_seconds t + 1 := by
  unfold count_requests_sliding_window
  rw [List.countP_append]
  simp only [List.countP_cons, List.countP_nil]
  rw [if_pos (by simp)]

/-- Invariant tying the cached run's state `sc` to the uncached run's state
`su` when every call is for the same key, the same window length and the same
instant `t`: the stores agree, the uncached run's cache dicts stay empty, and
the cached run's cache is either still empty or holds exactly the entry
`(t, current sliding count)` for the key. -/
def C2inv (identifier endpoint : String) (window_seconds t : Nat)
    (sc su : RLState) : Prop :=
  sc.store = su.store ∧ su.cacheData = [] ∧ su.cacheTtl = [] ∧
  ((sc.cacheData = [] ∧ sc.cacheTtl = []) ∨
   (sc.cacheData = [(get_cache_key identifier endpoint,
      (t, count_requests_sliding_window sc.store identifier endpoint window_seconds t))] ∧
    sc.cacheTtl = [(get_cache_key identifier endpoint, t + window_seconds)]))

theorem C2inv_cacheData_small (identifier endpoint : String)
    (window_seconds t : Nat) (sc su : RLState)
    (h : C2inv identifier endpoint window_seconds t sc su) :
    sc.cacheData.length ≤ 1000 := by
  rcases h.2.2.2 with ⟨h1, _⟩ | ⟨h1, _⟩ <;> rw [h1] <;> simp

theorem C2inv_current_count (identifier endpoint : String)
    (window_seconds t : Nat) (sc su : RLState) (hw : 0 < window_seconds)
    (h : C2inv identifier endpoint window_seconds t sc su) :
    current_count_of sc identifier endpoint window_seconds "sliding" true t =
      count_requests_sliding_window sc.store identifier endpoint window_seconds t := by
  have hsw : sweep_if_large sc t = sc :=
    sweep_if_large_of_small _ _ (C2inv_cacheData_small identifier endpoint
      window_seconds t sc su h)
  rcases h.2.2.2 with ⟨h1, _⟩ | ⟨h1, _⟩
  · have hnone : get_from_cache (sweep_if_large sc t) identifier endpoint
        window_seconds t = none := by
      rw [hsw]
      exact get_from_cache_of_empty sc identifier endpoint window_seconds t h1
    rw [current_count_of_miss sc identifier endpoint window_seconds "sliding" t hnone,
      hsw]
    unfold count_by_strategy
    rw [if_pos rfl]
  · have hsome : get_from_cache (sweep_if_large sc t) identifier endpoint
        window_seconds t = some (count_requests_sliding_window sc.store identifier
          endpoint window_seconds t) := by
      rw [hsw]
      exact get_from_cache_of_singleton_fresh sc identifier endpoint window_seconds
        t t _ h1 (by omega)
    exact current_count_of_hit sc identifier endpoint window_seconds "sliding" t _ hsome

theorem C2inv_state_after_count (identifier endpoint : String)
    (window_seconds t : Nat) (sc su : RLState) (hw : 0 < window_seconds)
    (h : C2inv identifier endpoint window_seconds t sc su) :
    (state_after_count sc identifier endpoint window_seconds "sliding" true t).store
        = sc.store ∧
    ((state_after_count sc identifier endpoint window_seconds "sliding" true t).cacheData =
        [(get_cache_key identifier endpoint,
          (t, count_requests_sliding_window sc.store identifier endpoint window_seconds t))] ∧
     (state_after_count sc identifier endpoint window_seconds "sliding" true t).cacheTtl =
        [(get_cache_key identifier endpoint, t + window_seconds)]) := by
  refine ⟨state_after_count_store _ _ _ _ _ _ _, ?_⟩
  have hsw : sweep_if_large sc t = sc :=
    sweep_if_large_of_small _ _ (C2inv_cacheData_small identifier endpoint
      window_seconds t sc su h)
  rcases h.2.2.2 with ⟨h1, h2⟩ | ⟨h1, h2⟩
  · have hnone : get_from_cache (sweep_if_large sc t) identifier endpoint
        window_seconds t = none := by
      rw [hsw]
      exact get_from_cache_of_empty sc identifier endpoint window_seconds t h1
    rw [state_after_count_miss sc identifier endpoint window_seconds "sliding" t hnone,
      hsw]
    constructor
    · rw [set_cache_cacheData, h1]
      unfold count_by_strategy
      rw [if_pos rfl]
      rfl
    · rw [set_cache_cacheTtl, h2]
      rfl
  · have hsome : get_from_cache (sweep_if_large sc t) identifier endpoint
        window_seconds t = some (count_requests_sliding_window sc.store identifier
          endpoint window_seconds t) := by
      rw [hsw]
      exact get_from_cache_of_singleton_fresh sc identifier endpoint window_seconds
        t t _ h1 (by omega)
    rw [state_after_count_hit sc identifier endpoint window_seconds "sliding" t _ hsome,
      hsw]
    exact ⟨h1, h2⟩

/-- One synchronized step of the two runs: same outcome, invariant preserved. -/
theorem C2_step (identifier endpoint : String) (window_seconds t : Nat)
    (sc su : RLState) (l : Nat) (hw : 0 < window_seconds)
    (h : C2inv identifier endpoint window_seconds t sc su) :
    (check_limit sc identifier endpoint l window_seconds "sliding" true t).1 =
      (check_limit su identifier endpoint l window_seconds "sliding" false t).1 ∧
    C2inv identifier endpoint window_seconds t
      (check_limit sc identifier endpoint l window_seconds "sliding" true t).2
      (check_limit su identifier endpoint l window_seconds "sliding" false t).2 := by
  obtain ⟨hstore, hsuD, hsuT, hc⟩ := h
  have hsusmall : su.cacheData.length ≤ 1000 := by rw [hsuD]; simp
  have hccU : current_count_of su identifier endpoint window_seconds "sliding" false t =
      count_requests_sliding_window su.store identifier endpoint window_seconds t := by
    rw [current_count_of_nocache]
    unfold count_by_strategy
    rw [if_pos rfl]
  have hccC := C2inv_current_count identifier endpoint window_seconds t sc su hw
    ⟨hstore, hsuD, hsuT, hc⟩
  have hcounts : count_requests_sliding_window sc.store identifier endpoint
      window_seconds t = count_requests_sliding_window su.store identifier endpoint
      window_seconds t := by rw [hstore]
  have hmid := C2inv_state_after_count identifier endpoint window_seconds t sc su hw
    ⟨hstore, hsuD, hsuT, hc⟩
  have hsuCacheD := check_limit_nocache_cacheData su identifier endpoint l
    window_seconds "sliding" t
  have hsuCacheT := check_limit_nocache_cacheTtl su identifier endpoint l
    window_seconds "sliding" t
  rw [sweep_if_large_of_small _ _ hsusmall] at hsuCacheD hsuCacheT
  constructor
  · rw [check_limit_result, check_limit_result, hccU, hccC, hcounts]
  · have hstC := check_limit_store_effect sc identifier endpoint l window_seconds
      "sliding" true t
    have hstU := check_limit_store_effect su identifier endpoint l window_seconds
      "sliding" false t
    have hdecEq : isAllowedResult
        (check_limit sc identifier endpoint l window_seconds "sliding" true t).1 =
        isAllowedResult
        (check_limit su identifier endpoint l window_seconds "sliding" false t).1 := by
      rw [check_limit_result, check_limit_result, hccU, hccC, hcounts]
    rw [check_limit_state sc identifier endpoint l window_seconds "sliding" true t,
      check_limit_state su identifier endpoint l window_seconds "sliding" false t]
    rw [hccU, hccC, hcounts]
    split
    · -- denied in both runs
      refine ⟨?_, ?_, ?_, ?_⟩
      · rw [hmid.1, state_after_count_nocache, sweep_if_large_of_small _ _ hsusmall]
        exact hstore
      · rw [state_after_count_nocache, sweep_if_large_of_small _ _ hsusmall]
        exact hsuD
      · rw [state_after_count_nocache, sweep_if_large_of_small _ _ hsusmall]
        exact hsuT
      · right
        rw [hmid.1]
        exact hmid.2
    · -- admitted in both runs
      rw [if_pos rfl, if_neg (by simp)]
      have hkeysD : ∀ p ∈ (admit_logged_state sc identifier endpoint window_seconds
          "sliding" true t).cacheData, p.1 = get_cache_key identifier endpoint := by
        rw [admit_logged_state_cacheData, hmid.2.1]
        simp
      have hkeysT : ∀ p ∈ (admit_logged_state sc identifier endpoint window_seconds
          "sliding" true t).cacheTtl, p.1 = get_cache_key identifier endpoint := by
        rw [admit_logged_state_cacheTtl, hmid.2.2]
        simp
      refine ⟨?_, ?_, ?_, ?_⟩
      · rw [set_cache_store, admit_logged_state_store, admit_logged_state_store,
          state_after_count_store, state_after_count_store, hstore]
      · rw [admit_logged_state_cacheData, state_after_count_nocache,
          sweep_if_large_of_small _ _ hsusmall]
        exact hsuD
      · rw [admit_logged_state_cacheTtl, state_after_count_nocache,
          sweep_if_large_of_small _ _ hsusmall]
        exact hsuT
      · right
        constructor
        · rw [set_cache_cacheData, alSet_all_same _ _ _ hkeysD, set_cache_store,
            admit_logged_state_store, state_after_count_store,
            sliding_count_append_self]
          rw [hcounts]
        · rw [set_cache_cacheTtl, alSet_all_same _ _ _ hkeysT]

theorem C2_run (identifier endpoint : String) (window_seconds t : Nat)
    (hw : 0 < window_seconds) :
    ∀ (limits : List Nat) (sc su : RLState),
      C2inv identifier endpoint window_seconds t sc su →
      (runSeq true (limits.map (fun l =>
          (⟨identifier, endpoint, l, window_seconds, "sliding", t⟩ : Call))) sc).1 =
      (runSeq false (limits.map (fun l =>
          (⟨identifier, endpoint, l, window_seconds, "sliding", t⟩ : Call))) su).1 := by
  intro limits
  induction limits with
  | nil => intro sc su _; rfl
  | cons l ls ih =>
      intro sc su h
      have hstep := C2_step identifier endpoint window_seconds t sc su l hw h
      simp only [List.map_cons, runSeq]
      rw [hstep.1, ih _ _ hstep.2]

/-- C2 counterexample: same key, same window (10 s), same limit (2), sliding
strategy, identical initial store (empty) and identical call times 0, 9, 12.
With `use_cache = true` the third call reads the cached count 2 (written at
t = 9, still fresh at t = 12) and is denied; with `use_cache = false` the
third call recounts the store — the record at t = 0 has left the sliding
window `[2, 12]` — finds 1 and admits. The cache changes the decision. -/
theorem C2_counterexample_stale_cached_count :
    (runSeq true
      [⟨"ip1", "/api/ping/", 2, 10, "sliding", 0⟩,
       ⟨"ip1", "/api/ping/", 2, 10, "sliding", 9⟩,
       ⟨"ip1", "/api/ping/", 2, 10, "sliding", 12⟩] initState).1 ≠
    (runSeq false
      [⟨"ip1", "/api/ping/", 2, 10, "sliding", 0⟩,
       ⟨"ip1", "/api/ping/", 2, 10, "sliding", 9⟩,
       ⟨"ip1", "/api/ping/", 2, 10, "sliding", 12⟩] initState).1 := by
  have h1 : (runSeq true
      [⟨"ip1", "/api/ping/", 2, 10, "sliding", 0⟩,
       ⟨"ip1", "/api/ping/", 2, 10, "sliding", 9⟩,
       ⟨"ip1", "/api/ping/", 2, 10, "sliding", 12⟩] initState).1 =
      [Except.ok (true, 1, 10), Except.ok (true, 0, 19),
       Except.error ⟨2, 2, 10, 22⟩] := by rfl
  have h2 : (runSeq false
      [⟨"ip1", "/api/ping/", 2, 10, "sliding", 0⟩,
       ⟨"ip1", "/api/ping/", 2, 10, "sliding", 9⟩,
       ⟨"ip1", "/api/ping/", 2, 10, "sliding", 12⟩] initState).1 =
      [Except.ok (true, 1, 10), Except.ok (true, 0, 19),
       Except.ok (true, 0, 22)] := by rfl
  rw [h1, h2]
  simp

/-- C2 amended: the cache is decision-transparent only while no time passes
and the window does not change. For every sequence of calls for a single
(identifier, endpoint) key, all with the same positive `window_seconds`, the
sliding strategy and one common instant `t` (with arbitrary per-call limits),
starting from identical store contents and an empty cache, `use_cache = true`
and `use_cache = false` produce identical outcomes on every call. Once time
elapses between calls, the cached count can be stale by up to one window and
the decisions can differ (see the counterexample). -/
theorem C2_same_instant_cache_transparent (s0 : RLState)
    (identifier endpoint : String) (window_seconds t : Nat)
    (limits : List Nat) (hw : 0 < window_seconds)
    (hcacheD : s0.cacheData = []) (hcacheT : s0.cacheTtl = []) :
    (runSeq true (limits.map (fun l =>
        (⟨identifier, endpoint, l, window_seconds, "sliding", t⟩ : Call))) s0).1 =
    (runSeq false (limits.map (fun l =>
        (⟨identifier, endpoint, l, window_seconds, "sliding", t⟩ : Call))) s0).1 :=
  C2_run identifier endpoint window_seconds t hw limits s0 s0
    ⟨rfl, hcacheD, hcacheT, Or.inl ⟨hcacheD, hcacheT⟩⟩

theorem C2_same_instant_cache_transparent_witness :
    (runSeq true ([2, 2, 2].map (fun l =>
        (⟨"ip1", "/api/ping/", l, 60, "sliding", 5⟩ : Call))) initState).1 =
    (runSeq false ([2, 2, 2].map (fun l =>
        (⟨"ip1", "/api/ping/", l, 60, "sliding", 5⟩ : Call))) initState).1 :=
  C2_same_instant_cache_transparent initState "ip1" "/api/ping/" 60 5 [2, 2, 2]
    (by decide) rfl rfl

/-- One row of the `by_endpoint` aggregation in `StatsView.get`: the endpoint,
`Count('id')` and `Max('timestamp')`. -/
structure EndpointStat where
  endpoint : String
  count : Nat
  last_request : Nat
deriving Repr, DecidableEq

/-- The response body assembled by `StatsView.get` (minus the echoed request
parameters): total count, per-endpoint stats, and the recent-request list. -/
structure StatsSummary where
  total_requests : Nat
  by_endpoint : List EndpointStat
  recent_requests : List Record
deriving Repr, DecidableEq

/-- `order_by('-count')`: descending count. -/
def byCountDesc (a b : EndpointStat) : Prop := b.count ≤ a.count

/-- `order_by('-timestamp')`: newest first. -/
def byTimeDesc (a b : Record) : Prop := b.timestamp ≤ a.timestamp

instance : DecidableRel byCountDesc := fun a b => Nat.decLe b.count a.count

instance : DecidableRel byTimeDesc := fun a b => Nat.decLe b.timestamp a.timestamp

instance : IsTotal EndpointStat byCountDesc := ⟨fun a b => Nat.le_total b.count a.count⟩

instance : IsTrans EndpointStat byCountDesc :=
  ⟨fun _ _ _ hab hbc => le_trans hbc hab⟩

instance : IsTotal Record byTimeDesc := ⟨fun a b => Nat.le_total b.timestamp a.timestamp⟩

instance : IsTrans Record byTimeDesc :=
  ⟨fun _ _ _ hab hbc => le_trans hbc hab⟩

/-- `StatsView.get` (limiter/views.py lines 141-184):
* `start_time = now - timedelta(hours=hours)`;
* base queryset: records with the identifier and `timestamp ≥ start_time`;
* `by_endpoint`: group by endpoint with `count = Count('id')`,
  `last_request = Max('timestamp')`, ordered by `-count`;
* `total_requests`: count of the base queryset;
* `recent_requests`: base queryset ordered by `-timestamp`, first 10.
The Django view only reads; the state is returned unchanged. -/
def statsView_get (s : RLState) (identifier : String) (hours now : Nat) :
    StatsSummary × RLState :=
  let matching := s.store.filter (fun r =>
    decide (r.identifier = identifier ∧ now - hours * 3600 ≤ r.timestamp))
  let stats := List.insertionSort byCountDesc
    (((matching.map (fun r => r.endpoint)).dedup).map (fun e =>
      { endpoint := e,
        count := (matching.filter (fun r => decide (r.endpoint = e))).length,
        last_request := ((matching.filter (fun r => decide (r.endpoint = e))).map
          (fun r => r.timestamp)).foldl max 0 }))
  ({ total_requests := matching.length,
     by_endpoint := stats,
     recent_requests := (List.insertionSort byTimeDesc matching).take 10 }, s)

theorem foldl_max_init_le (l : List Nat) (a : Nat) : a ≤ l.foldl max a := by
  induction l generalizing a with
  | nil => exact le_refl a
  | cons y ys ih =>
      calc a ≤ max a y := Nat.le_max_left a y
        _ ≤ List.foldl max (max a y) ys := ih (max a y)

theorem foldl_max_le (l : List Nat) (a : Nat) : ∀ x ∈ l, x ≤ l.foldl max a := by
  induction l generalizing a with
  | nil => intro x hx; cases hx
  | cons y ys ih =>
      intro x hx
      rcases List.mem_cons.mp hx with rfl | hx'
      · calc x ≤ max a x := Nat.le_max_right a x
          _ ≤ List.foldl max (max a x) ys := foldl_max_init_le ys (max a x)
      · exact ih (max a y) x hx'

theorem foldl_max_mem (l : List Nat) (a : Nat) :
    l.foldl max a ∈ l ∨ l.foldl max a = a := by
  induction l generalizing a with
  | nil => exact Or.inr rfl
  | cons y ys ih =>
      rcases ih (max a y) with h | h
      · exact Or.inl (List.mem_cons_of_mem y h)
      · rcases Nat.le_total a y with hay | hya
        · left
          rw [List.foldl_cons, h, Nat.max_eq_right hay]
          exact List.mem_cons_self y ys
        · right
          rw [List.foldl_cons, h, Nat.max_eq_left hya]

/-- The base queryset of `StatsView.get`: the identifier's records in the
trailing period. -/
def statsMatching (s : RLState) (identifier : String) (hours now : Nat) :
    List Record :=
  s.store.filter (fun r =>
    decide (r.identifier = identifier ∧ now - hours * 3600 ≤ r.timestamp))

/-- The unsorted per-endpoint aggregation rows of `StatsView.get`. -/
def endpointStats (m : List Record) : List EndpointStat :=
  ((m.map (fun r => r.endpoint)).dedup).map (fun e =>
    { endpoint := e,
      count := (m.filter (fun r => decide (r.endpoint = e))).length,
      last_request := ((m.filter (fun r => decide (r.endpoint = e))).map
        (fun r => r.timestamp)).foldl max 0 })

theorem statsView_get_snd (s : RLState) (identifier : String) (hours now : Nat) :
    (statsView_get s identifier hours now).2 = s := rfl

theorem statsView_get_total (s : RLState) (identifier : String) (hours now : Nat) :
    (statsView_get s identifier hours now).1.total_requests =
      (statsMatching s identifier hours now).length := rfl

theorem statsView_get_by_endpoint (s : RLState) (identifier : String)
    (hours now : Nat) :
    (statsView_get s identifier hours now).1.by_endpoint =
      List.insertionSort byCountDesc
        (endpointStats (statsMatching s identifier hours now)) := rfl

theorem statsView_get_recent (s : RLState) (identifier : String) (hours now : Nat) :
    (statsView_get s identifier hours now).1.recent_requests =
      (List.insertionSort byTimeDesc (statsMatching s identifier hours now)).take 10 :=
  rfl

theorem endpointStats_entry_spec (m : List Record) (st : EndpointStat)
    (hst : st ∈ endpointStats m) :
    st.count = (m.filter (fun r => decide (r.endpoint = st.endpoint))).length ∧
    (∀ r ∈ m, r.endpoint = st.endpoint → r.timestamp ≤ st.last_request) ∧
    (∃ r ∈ m, r.endpoint = st.endpoint ∧ r.timestamp = st.last_request) := by
  rcases List.mem_map.mp hst with ⟨e, he, hmk⟩
  subst hmk
  refine ⟨rfl, ?_, ?_⟩
  · intro r hr hre
    apply foldl_max_le
    exact List.mem_map.mpr ⟨r, List.mem_filter.mpr ⟨hr, by simpa using hre⟩, rfl⟩
  · have he' : e ∈ m.map (fun r => r.endpoint) := List.mem_dedup.mp he
    rcases List.mem_map.mp he' with ⟨r0, hr0, hre0⟩
    have hr0g : r0 ∈ m.filter (fun r => decide (r.endpoint = e)) :=
      List.mem_filter.mpr ⟨hr0, by simpa using hre0⟩
    rcases foldl_max_mem ((m.filter (fun r => decide (r.endpoint = e))).map
        (fun r => r.timestamp)) 0 with hmem | h0
    · rcases List.mem_map.mp hmem with ⟨r1, hr1, hts⟩
      have hr1m := List.mem_filter.mp hr1
      exact ⟨r1, hr1m.1, by simpa using hr1m.2, hts⟩
    · refine ⟨r0, hr0, hre0, ?_⟩
      have hle := foldl_max_le ((m.filter (fun r => decide (r.endpoint = e))).map
        (fun r => r.timestamp)) 0 r0.timestamp (List.mem_map.mpr ⟨r0, hr0g, rfl⟩)
      dsimp only
      omega

theorem endpointStats_endpoints (m : List Record) :
    (endpointStats m).map (fun st => st.endpoint) = (m.map (fun r => r.endpoint)).dedup := by
  unfold endpointStats
  rw [List.map_map]
  exact List.map_id _

/-- C9: `StatsView.get` never mutates the store or the cache; its
`total_requests` counts exactly the identifier's records with
`timestamp ≥ now - hours·3600`; `by_endpoint` lists every endpoint having at
least one such record exactly once, with that endpoint's count and latest
request timestamp, sorted by descending count; and `recent_requests` holds at
most the 10 most recent of those records, sorted newest-first. -/
theorem C9_stats_view (s : RLState) (identifier : String) (hours now : Nat) :
    (statsView_get s identifier hours now).2 = s ∧
    (statsView_get s identifier hours now).1.total_requests =
      s.store.countP (fun r =>
        decide (r.identifier = identifier ∧ now - hours * 3600 ≤ r.timestamp)) ∧
    List.Pairwise (fun a b => b.count ≤ a.count)
      (statsView_get s identifier hours now).1.by_endpoint ∧
    (∀ st ∈ (statsView_get s identifier hours now).1.by_endpoint,
      st.count = s.store.countP (fun r =>
        decide (r.identifier = identifier ∧ now - hours * 3600 ≤ r.timestamp ∧
          r.endpoint = st.endpoint)) ∧
      (∀ r ∈ s.store, r.identifier = identifier → now - hours * 3600 ≤ r.timestamp →
        r.endpoint = st.endpoint → r.timestamp ≤ st.last_request) ∧
      (∃ r ∈ s.store, r.identifier = identifier ∧ now - hours * 3600 ≤ r.timestamp ∧
        r.endpoint = st.endpoint ∧ r.timestamp = st.last_request)) ∧
    (∀ e, (∃ st ∈ (statsView_get s identifier hours now).1.by_endpoint,
        st.endpoint = e) ↔
      (∃ r ∈ s.store, r.identifier = identifier ∧ now - hours * 3600 ≤ r.timestamp ∧
        r.endpoint = e)) ∧
    ((statsView_get s identifier hours now).1.by_endpoint.map
      (fun st => st.endpoint)).Nodup ∧
    (statsView_get s identifier hours now).1.recent_requests.length =
      min 10 (s.store.countP (fun r =>
        decide (r.identifier = identifier ∧ now - hours * 3600 ≤ r.timestamp))) ∧
    List.Pairwise (fun a b => b.timestamp ≤ a.timestamp)
      (statsView_get s identifier hours now).1.recent_requests ∧
    (∀ r ∈ (statsView_get s identifier hours now).1.recent_requests,
      r ∈ s.store ∧ r.identifier = identifier ∧ now - hours * 3600 ≤ r.timestamp) ∧
    (∀ r ∈ s.store, r.identifier = identifier → now - hours * 3600 ≤ r.timestamp →
      r ∉ (statsView_get s identifier hours now).1.recent_requests →
      ∀ q ∈ (statsView_get s identifier hours now).1.recent_requests,
        r.timestamp ≤ q.timestamp) := by
  have hmdef : statsMatching s identifier hours now = s.store.filter (fun r =>
      decide (r.identifier = identifier ∧ now - hours * 3600 ≤ r.timestamp)) := rfl
  refine ⟨statsView_get_snd s identifier hours now, ?_, ?_, ?_, ?_, ?_, ?_, ?_, ?_, ?_⟩
  · rw [statsView_get_total, hmdef]
    exact (List.countP_eq_length_filter _ _).symm
  · rw [statsView_get_by_endpoint]
    exact List.sorted_insertionSort byCountDesc _
  · intro st hst
    rw [statsView_get_by_endpoint] at hst
    have hst' : st ∈ endpointStats (statsMatching s identifier hours now) :=
      (List.perm_insertionSort byCountDesc _).mem_iff.mp hst
    obtain ⟨hcount, hub, hex⟩ := endpointStats_entry_spec _ st hst'
    refine ⟨?_, ?_, ?_⟩
    · rw [hcount, ← List.countP_eq_length_filter, hmdef, List.countP_filter]
      apply List.countP_congr
      intro r _
      simp only [Bool.and_eq_true, decide_eq_true_eq]
      tauto
    · intro r hr hid hts hre
      exact hub r (List.mem_filter.mpr ⟨hr, by simp [hid, hts]⟩) hre
    · obtain ⟨r, hrm, hre, hts⟩ := hex
      have hrr := List.mem_filter.mp hrm
      have hprops : r.identifier = identifier ∧ now - hours * 3600 ≤ r.timestamp := by
        simpa using hrr.2
      exact ⟨r, hrr.1, hprops.1, hprops.2, hre, hts⟩
  · intro e
    constructor
    · rintro ⟨st, hst, rfl⟩
      rw [statsView_get_by_endpoint] at hst
      have hst' : st ∈ endpointStats (statsMatching s identifier hours now) :=
        (List.perm_insertionSort byCountDesc _).mem_iff.mp hst
      obtain ⟨_, _, ⟨r, hrm, hre, _⟩⟩ := endpointStats_entry_spec _ st hst'
      have hrr := List.mem_filter.mp hrm
      have hprops : r.identifier = identifier ∧ now - hours * 3600 ≤ r.timestamp := by
        simpa using hrr.2
      exact ⟨r, hrr.1, hprops.1, hprops.2, hre⟩
    · rintro ⟨r, hr, hid, hts, hre⟩
      have hrm : r ∈ statsMatching s identifier hours now :=
        List.mem_filter.mpr ⟨hr, by simp [hid, hts]⟩
      have hed : r.endpoint ∈ ((statsMatching s identifier hours now).map
          (fun r => r.endpoint)).dedup :=
        List.mem_dedup.mpr (List.mem_map.mpr ⟨r, hrm, rfl⟩)
      refine ⟨EndpointStat.mk r.endpoint
          (((statsMatching s identifier hours now).filter
            (fun r2 => decide (r2.endpoint = r.endpoint))).length)
          ((((statsMatching s identifier hours now).filter
            (fun r2 => decide (r2.endpoint = r.endpoint))).map
              (fun r2 => r2.timestamp)).foldl max 0), ?_, ?_⟩
      · rw [statsView_get_by_endpoint]
        exact (List.perm_insertionSort byCountDesc _).mem_iff.mpr
          (List.mem_map.mpr ⟨r.endpoint, hed, rfl⟩)
      · exact hre
  · rw [statsView_get_by_endpoint]
    have hperm := (List.perm_insertionSort byCountDesc
      (endpointStats (statsMatching s identifier hours now))).map
      (fun st => st.endpoint)
    rw [hperm.nodup_iff, endpointStats_endpoints]
    exact List.nodup_dedup _
  · rw [statsView_get_recent, List.length_take,
      (List.perm_insertionSort byTimeDesc _).length_eq, hmdef,
      ← List.countP_eq_length_filter]
  · rw [statsView_get_recent]
    exact List.Pairwise.sublist (List.take_sublist 10 _)
      (List.sorted_insertionSort byTimeDesc _)
  · intro r hr
    rw [statsView_get_recent] at hr
    have hrs : r ∈ List.insertionSort byTimeDesc (statsMatching s identifier hours now) :=
      List.take_subset 10 _ hr
    have hrm : r ∈ statsMatching s identifier hours now :=
      (List.perm_insertionSort byTimeDesc _).mem_iff.mp hrs
    have hrr := List.mem_filter.mp hrm
    have hprops : r.identifier = identifier ∧ now - hours * 3600 ≤ r.timestamp := by
      simpa using hrr.2
    exact ⟨hrr.1, hprops.1, hprops.2⟩
  · intro r hr hid hts hnot q hq
    rw [statsView_get_recent] at hnot hq
    have hsorted := List.sorted_insertionSort byTimeDesc
      (statsMatching s identifier hours now)
    have hsplit := List.take_append_drop 10
      (List.insertionSort byTimeDesc (statsMatching s identifier hours now))
    have hpw : List.Pairwise byTimeDesc
        (List.take 10 (List.insertionSort byTimeDesc
            (statsMatching s identifier hours now)) ++
         List.drop 10 (List.insertionSort byTimeDesc
            (statsMatching s identifier hours now))) := by
      rw [hsplit]
      exact hsorted
    have hcross := (List.pairwise_append.mp hpw).2.2
    have hrm : r ∈ statsMatching s identifier hours now :=
      List.mem_filter.mpr ⟨hr, by simp [hid, hts]⟩
    have hrs : r ∈ List.insertionSort byTimeDesc (statsMatching s identifier hours now) :=
      (List.perm_insertionSort byTimeDesc _).mem_iff.mpr hrm
    have hrd : r ∈ List.drop 10 (List.insertionSort byTimeDesc
        (statsMatching s identifier hours now)) := by
      rw [← hsplit] at hrs
      rcases List.mem_append.mp hrs with h | h
      · exact absurd h hnot
      · exact h
    exact hcross q hq r hrd

theorem C7_success_shape_witness :
    true = true ∧
    (4 : Int) = (5 : Int) -
        ((current_count_of initState "ip1" "/api/ping/" 60 "sliding" true 100 : Int) + 1) ∧
    (160 : Nat) = 100 + 60 ∧ (0 : Int) ≤ 4 :=
  C7_success_shape initState "ip1" "/api/ping/" 5 60 "sliding" true 100 true 4 160 (by rfl)

end RateLimiterModel
